import Mathlib

/-!
A shallow embedding of the `bls` ambient-light backlight controller
(`main.go`, latest of the repository's iterations) together with proofs
about its sampling window, illuminance-to-brightness mapping, hysteresis
gate, ramping actuator, loop control flow and error handling.

Go's integer division truncates toward zero, so every `/` of the source
is embedded as `Int.tdiv`.
-/

namespace Bls

/-- Configuration record of the poller, embedding the `poller` struct of
`main.go` (durations `wait`/`gradWait` carry no algorithmic content and
are omitted; `debug` only selects log output). -/
structure Poller where
  probes : Nat
  max : Int
  min : Int
  grad : Int
  sens : Int
  ratio : Int
  dryrun : Bool

/-- `granularity := 100` from `poller.poll`. -/
def granularity : Int := 100

/-- The percentage step of `poller.poll`:
`inlightPercent := inlight * granularity / maxIn` with `maxIn = p.ratio * granularity`,
then clamped above at `granularity`. -/
def inlightPercentFn (p : Poller) (inlight : Int) : Int :=
  let maxIn := p.ratio * granularity
  let x := Int.tdiv (inlight * granularity) maxIn
  if granularity < x then granularity else x

/-- The target-brightness step of `poller.poll`:
`nblight := inlightPercent*p.max/granularity + p.min`, clamped above at `p.max`. -/
def nblightFn (p : Poller) (inlight : Int) : Int :=
  let pct := inlightPercentFn p inlight
  let nb := Int.tdiv (pct * p.max) granularity + p.min
  if p.max < nb then p.max else nb

/-- The illuminance-to-brightness mapping as the specification words it
(section 4.2): `percent = clamp(avg*100/(ratio*100), 0, 100)`;
`target = clamp(percent*(max-min)/100 + min, min, max)`.  This definition
follows the spec, not the source; it exists to be compared with
`nblightFn`, the definition taken from the source. -/
def mapperTargetSpec (p : Poller) (avg : Int) : Int :=
  let percent := min 100 (max 0 (Int.tdiv (avg * 100) (p.ratio * 100)))
  min p.max (max p.min (Int.tdiv (percent * (p.max - p.min)) 100 + p.min))

/-- The hysteresis gate of `poller.poll`:
`diff := nblight - blight; if diff < 0 { diff = -diff }`;
apply when `diff >= p.sens || blight < p.min`. -/
def shouldApply (p : Poller) (blight nblight : Int) : Bool :=
  let diff := nblight - blight
  let diff := if diff < 0 then -diff else diff
  decide (p.sens ≤ diff) || decide (blight < p.min)

/-- The sample ring buffer `inlights` of `poller.poll` together with its
write index `inIndex`. -/
structure Window where
  slots : List Int
  idx : Nat

/-- One insertion: `inlights[inIndex] = inlight; inIndex = (inIndex + 1) % cap(inlights)`. -/
def Window.push (w : Window) (x : Int) : Window :=
  { slots := w.slots.set w.idx x, idx := (w.idx + 1) % w.slots.length }

/-- The averaging step of `poller.poll`: `inlight = 0; n := 0;`
sum all slots into `inlight`; `if n > 0 { inlight = inlight / n }`.
(`n` is never incremented in the source, so the division never runs.) -/
def windowAverage (slots : List Int) : Int :=
  let n : Int := 0
  let inlight := slots.foldl (fun a x => a + x) 0
  if 0 < n then Int.tdiv inlight n else inlight

/-- The inner sampling loop of `poller.poll`: repeatedly read the sensor
and push into the window until `inIndex` wraps to `0`.  `stream pos` is
the sensor reading consumed at position `pos`; the returned `Nat` is the
stream position after the loop.  The fuel is the number of pushes still
needed to wrap, `cap - inIndex`, which the loop performs exactly. -/
def sampleLoopAux : Nat → Window → (Nat → Int) → Nat → Window × Nat
  | 0, w, _, pos => (w, pos)
  | fuel + 1, w, stream, pos =>
    let w2 := w.push (stream pos)
    if w2.idx = 0 then (w2, pos + 1)
    else sampleLoopAux fuel w2 stream (pos + 1)

/-- State of `poller.poll` between cycles: the window, the sensor-stream
position (number of sensor reads so far) and the backlight-read position. -/
structure LoopState where
  win : Window
  pos : Nat
  bpos : Nat

/-- Initial state of `poller.poll`: `inlights := make([]int, p.probes)`
(all zero), `inIndex = 0`, nothing read yet. -/
def initState (p : Poller) : LoopState :=
  ⟨⟨List.replicate p.probes 0, 0⟩, 0, 0⟩

/-- The sampling phase of one cycle of `poller.poll`. -/
def cycleSample (p : Poller) (sensor : Nat → Int) (s : LoopState) : Window × Nat :=
  sampleLoopAux (p.probes - s.win.idx) s.win sensor s.pos

/-- Observable outcome of one cycle of `poller.poll`. -/
structure CycleOut where
  state : LoopState
  blight : Int
  avg : Int
  target : Int
  applied : Bool
  writes : List Int
  slept : Bool

/-- The gradual transition `poller.setBlight`, increase direction:
`for curr < set { curr += p.grad; if curr > set { curr = set }; write curr }`.
The fuel bounds the iteration count; `(set - curr).toNat` suffices
whenever `grad ≥ 1`. -/
def rampUpAux : Nat → Int → Int → Int → List Int
  | 0, _, _, _ => []
  | fuel + 1, grad, curr, set =>
    if curr < set then
      let next := if set < curr + grad then set else curr + grad
      next :: rampUpAux fuel grad next set
    else []

/-- The gradual transition `poller.setBlight`, decrease direction:
`for curr > set { curr -= p.grad; if curr < set { curr = set }; write curr }`. -/
def rampDownAux : Nat → Int → Int → Int → List Int
  | 0, _, _, _ => []
  | fuel + 1, grad, curr, set =>
    if set < curr then
      let next := if curr - grad < set then set else curr - grad
      next :: rampDownAux fuel grad next set
    else []

/-- The sequence of levels `poller.setBlight(curr, set)` writes to the
backlight device, in order. -/
def rampSeq (grad curr set : Int) : List Int :=
  if set < curr then rampDownAux (curr - set).toNat grad curr set
  else rampUpAux (set - curr).toNat grad curr set

/-- One cycle of `poller.poll`: read backlight, fill the window from the
sensor, average, map to a target, gate, and either act (and `continue`
without sleeping) or sleep `p.wait`. -/
def cycle (p : Poller) (sensor blightR : Nat → Int) (s : LoopState) : CycleOut :=
  let blight := blightR s.bpos
  let ws := cycleSample p sensor s
  let inlight := windowAverage ws.1.slots
  let nb := nblightFn p inlight
  if shouldApply p blight nb then
    { state := ⟨ws.1, ws.2, s.bpos + 1⟩, blight := blight, avg := inlight, target := nb,
      applied := true, writes := if p.dryrun then [] else rampSeq p.grad blight nb,
      slept := false }
  else
    { state := ⟨ws.1, ws.2, s.bpos + 1⟩, blight := blight, avg := inlight, target := nb,
      applied := false, writes := [], slept := true }

/-- The loop state after `k` full cycles of `poller.poll`, starting from
the initial state. -/
def loopStateAfter (p : Poller) (sensor blightR : Nat → Int) : Nat → LoopState
  | 0 => initState p
  | k + 1 => (cycle p sensor blightR (loopStateAfter p sensor blightR k)).state

/-- Number of sensor reads pushed into the window when the evaluation
(averaging/mapping/gating) of cycle `k` runs: the stream position right
after that cycle's sampling phase. -/
def posAtEval (p : Poller) (sensor blightR : Nat → Int) (k : Nat) : Nat :=
  (cycleSample p sensor (loopStateAfter p sensor blightR k)).2

/-! ### Fallible model

The same loop with fallible collaborators, for the error-handling
behaviour: `sysfileReadInt` failures and `sysfileWriteInt` failures are
`Except.error`, and the source reacts to each with `log.Fatal`/`elog.Fatal`
(process abort), embedded as the cycle producing `Except.error` with the
source's diagnostic prefix. -/

/-- Loop state of the fallible model: window, sensor-read position,
backlight-read position and backlight-write position. -/
structure EState where
  win : Window
  pos : Nat
  bpos : Nat
  wpos : Nat

/-- The write loop inside `poller.setBlight`: write each level of the
ramp sequence in order; a failed `sysfileWriteInt` is returned (and the
caller aborts).  `writeRes n` is the outcome of the `n`-th write overall
(`none` = success). -/
def writeSeq (writeRes : Nat → Option String) : Nat → List Int → Except String Nat
  | wpos, [] => Except.ok wpos
  | wpos, _ :: rest =>
    match writeRes wpos with
    | some e => Except.error e
    | none => writeSeq writeRes (wpos + 1) rest

/-- The inner sampling loop of `poller.poll` with a fallible sensor:
a failed read aborts (`elog.Fatal`). -/
def sampleLoopE : Nat → Window → (Nat → Except String Int) → Nat →
    Except String (Window × Nat)
  | 0, w, _, pos => Except.ok (w, pos)
  | fuel + 1, w, sensor, pos =>
    match sensor pos with
    | Except.error e => Except.error e
    | Except.ok x =>
      let w2 := w.push x
      if w2.idx = 0 then Except.ok (w2, pos + 1)
      else sampleLoopE fuel w2 sensor (pos + 1)

/-- One cycle of `poller.poll` in the fallible model.  Each `Fatal` of
the source becomes an `Except.error` carrying the source's message
prefix; a successful cycle returns the next state. -/
def cycleE (p : Poller) (sensor blightR : Nat → Except String Int)
    (writeRes : Nat → Option String) (s : EState) : Except String EState :=
  match blightR s.bpos with
  | Except.error e => Except.error ("cannot get backlight value: " ++ e)
  | Except.ok blight =>
    match sampleLoopE (p.probes - s.win.idx) s.win sensor s.pos with
    | Except.error e => Except.error ("cannot get ambient light value: " ++ e)
    | Except.ok ws =>
      let inlight := windowAverage ws.1.slots
      let nb := nblightFn p inlight
      if shouldApply p blight nb then
        if p.dryrun then Except.ok ⟨ws.1, ws.2, s.bpos + 1, s.wpos⟩
        else
          match writeSeq writeRes s.wpos (rampSeq p.grad blight nb) with
          | Except.error e => Except.error ("cannot set backlight: " ++ e)
          | Except.ok wpos2 => Except.ok ⟨ws.1, ws.2, s.bpos + 1, wpos2⟩
      else Except.ok ⟨ws.1, ws.2, s.bpos + 1, s.wpos⟩

/-- Run up to `n` cycles of the fallible loop; the first failing cycle's
error is the run's outcome, and no further cycle runs after it. -/
def runE (p : Poller) (sensor blightR : Nat → Except String Int)
    (writeRes : Nat → Option String) : Nat → EState → Except String EState
  | 0, s => Except.ok s
  | n + 1, s =>
    match cycleE p sensor blightR writeRes s with
    | Except.error e => Except.error e
    | Except.ok s2 => runE p sensor blightR writeRes n s2

/-- Whether a run outcome is an abort. -/
def isFatal {α : Type} : Except String α → Bool
  | Except.error _ => true
  | Except.ok _ => false

/-! ### Concrete fixtures used by counterexamples and witnesses -/

/-- The configuration of the spec's end-to-end scenarios A-C:
`min=40, max=100, ratio=60, sensitivity=2` (with the source's default
`probes=8`, `grad=5`). -/
def pollerA : Poller :=
  { probes := 8, max := 100, min := 40, grad := 5, sens := 2, ratio := 60,
    dryrun := false }

/-- Scenario-A configuration with `probes = 1` and `dryrun` set. -/
def pollerDry : Poller :=
  { probes := 1, max := 100, min := 40, grad := 5, sens := 2, ratio := 60,
    dryrun := true }

/-- Scenario-A configuration with `probes = 1`, writes enabled. -/
def pollerOne : Poller :=
  { probes := 1, max := 100, min := 40, grad := 5, sens := 2, ratio := 60,
    dryrun := false }

/-- A sensor constantly reading 3000 lux. -/
def sensor3000 : Nat → Int := fun _ => 3000

/-- A backlight device constantly reading 39. -/
def blight39 : Nat → Int := fun _ => 39

/-- A sensor constantly reading 10 lux. -/
def sensor10 : Nat → Int := fun _ => 10

/-- A fallible sensor that always succeeds with 3000 lux. -/
def sensorOkE : Nat → Except String Int := fun _ => Except.ok 3000

/-- A fallible backlight read that always fails. -/
def blightBadE : Nat → Except String Int := fun _ => Except.error "read failed"

/-- A backlight write that always succeeds. -/
def writeOkE : Nat → Option String := fun _ => none

/-- Initial state of the fallible model for a given configuration. -/
def initStateE (p : Poller) : EState :=
  ⟨⟨List.replicate p.probes 0, 0⟩, 0, 0, 0⟩

end Bls

namespace Bls

/-! ### Helper lemmas -/

/-- The source's upper clamp `if a < x then a else x` is `min a x`. -/
lemma clamp_above_eq_min (a x : Int) : (if a < x then a else x) = min a x := by
  rcases le_or_lt x a with h | h
  · rw [if_neg (not_lt.mpr h), min_eq_right h]
  · rw [if_pos h, min_eq_left h.le]

/-- Folding addition over a list from `a` is `a` plus the list sum. -/
lemma foldl_add_eq (l : List Int) (a : Int) :
    l.foldl (fun x y => x + y) a = a + l.sum := by
  induction l generalizing a with
  | nil => simp
  | cons b t ih => simp [ih, add_assoc]

/-! ### Claim theorems -/

/-- The source's target computation in closed form: both upper clamps
written as `min`. -/
lemma nblightFn_eq_min (p : Poller) (i : Int) :
    nblightFn p i =
      min p.max
        (Int.tdiv (min 100 (Int.tdiv (i * 100) (p.ratio * 100)) * p.max) 100 + p.min) := by
  simp only [nblightFn, inlightPercentFn, granularity, clamp_above_eq_min]

/-- **C1** (amended).  The Mapper computes the target brightness as
`min(config.max, percent*config.max/100 + config.min)` with
`percent = min(100, avgIlluminance*100/(config.ratioLux*100))` — the slope
uses `config.max`, not `config.max - config.min`; in particular with
`min=40, max=100, ratio=60` and average illuminance `3000` the target is
exactly `90`. -/
theorem mapper_target_formula :
    (∀ (p : Poller) (i : Int),
      nblightFn p i =
        min p.max
          (Int.tdiv (min 100 (Int.tdiv (i * 100) (p.ratio * 100)) * p.max) 100 + p.min))
    ∧ nblightFn pollerA 3000 = 90 :=
  ⟨fun p i => nblightFn_eq_min p i, by decide⟩

/-- **C1** (counterexample).  At the claim's own instance
(`min=40, max=100, ratio=60`, average illuminance `3000`) the source
computes target `90`, while the claimed formula
`percent*(max-min)/100 + min` gives `70`: the claim is false on the code. -/
theorem mapper_spec_formula_counterexample :
    nblightFn pollerA 3000 = 90 ∧ mapperTargetSpec pollerA 3000 = 70 ∧
    nblightFn pollerA 3000 ≠ mapperTargetSpec pollerA 3000 := by decide

/-- **C2** (the code contradicts it).  The value the loop uses as the
smoothed illuminance is the *sum* of the window slots, not their mean:
the divisor `n` of the source is initialised to `0` and never
incremented, so the division is skipped.  After pushing `probes`
identical samples `v` the value is `probes * v`; concretely, pushing two
samples of `10` into a 2-slot window yields `20`, not `10`. -/
theorem windowAverage_is_sum :
    (∀ (n : Nat) (v : Int), windowAverage (List.replicate n v) = (n : Int) * v)
    ∧ windowAverage ((sampleLoopAux 2 ⟨List.replicate 2 0, 0⟩ sensor10 0).1.slots) = 20
    ∧ windowAverage ((sampleLoopAux 2 ⟨List.replicate 2 0, 0⟩ sensor10 0).1.slots) ≠ 10 := by
  refine ⟨?_, by decide, by decide⟩
  intro n v
  simp [windowAverage, foldl_add_eq, List.sum_replicate, nsmul_eq_mul]

/-- **C4**.  The hysteresis gate decides to apply the target if and only
if `abs(target - current) ≥ config.sensitivity` or
`current < config.min`; with `min = 40` and current brightness `39` it
returns `true` regardless of the target. -/
theorem shouldApply_iff :
    (∀ (p : Poller) (c t : Int), shouldApply p c t = true ↔ (p.sens ≤ |t - c| ∨ c < p.min))
    ∧ ∀ t : Int, shouldApply pollerA 39 t = true := by
  constructor
  · intro p c t
    have habs : (if t - c < 0 then -(t - c) else t - c) = |t - c| := by
      rcases lt_or_le (t - c) 0 with h | h
      · rw [if_pos h, abs_of_neg h]
      · rw [if_neg (not_lt.mpr h), abs_of_nonneg h]
    simp only [shouldApply, habs, Bool.or_eq_true, decide_eq_true_eq]
  · intro t
    simp [shouldApply, pollerA]

/-- **C6** (amended).  Whether a cycle of the loop ends by sleeping is
decided by the gate alone: the loop sleeps exactly when the gate decides
not to apply; whenever it decides to apply — in dry-run as well as when
writing — the loop re-samples immediately without sleeping. -/
theorem cycle_slept_iff_not_applied (p : Poller) (sensor blightR : Nat → Int)
    (s : LoopState) :
    (cycle p sensor blightR s).slept = !(cycle p sensor blightR s).applied := by
  simp only [cycle]
  split <;> rfl

/-- **C6** (counterexample).  A cycle in which the gate decides to apply
while `dryRun` is set does not sleep, contrary to the claim that it
sleeps for `config.pollInterval`. -/
theorem cycle_dryrun_no_sleep_counterexample :
    pollerDry.dryrun = true
    ∧ (cycle pollerDry sensor3000 blight39 (initState pollerDry)).applied = true
    ∧ (cycle pollerDry sensor3000 blight39 (initState pollerDry)).slept = false := by
  decide

/-- **C10**.  Invoked with current equal to target, the Ramper writes
nothing: the sequence of levels is empty, and running the write loop
over it succeeds without touching the device (the write position is
unchanged). -/
theorem rampSeq_self_no_writes (grad c : Int) (writeRes : Nat → Option String) (w : Nat) :
    rampSeq grad c c = [] ∧ writeSeq writeRes w (rampSeq grad c c) = Except.ok w := by
  have h : rampSeq grad c c = [] := by
    unfold rampSeq
    rw [if_neg (lt_irrefl c), sub_self]
    rfl
  exact ⟨h, by rw [h]; rfl⟩

end Bls

namespace Bls

/-- Consing onto a list keeps its last element. -/
lemma getLast?_cons_of_some (a x : Int) (l : List Int) (h : l.getLast? = some x) :
    (a :: l).getLast? = some x := by
  cases l with
  | nil => simp at h
  | cons b t => rw [List.getLast?_cons_cons]; exact h

/-- The increase loop of `poller.setBlight`: starting strictly below the
target with a positive step, it ends exactly at the target and each step
strictly increases by at most `grad`. -/
lemma rampUpAux_spec (grad set : Int) (hg : 1 ≤ grad) :
    ∀ (fuel : Nat) (curr : Int), curr < set → (set - curr).toNat ≤ fuel →
      (rampUpAux fuel grad curr set).getLast? = some set ∧
      List.Chain' (fun a b => a < b ∧ b - a ≤ grad)
        (curr :: rampUpAux fuel grad curr set) := by
  intro fuel
  induction fuel with
  | zero => intro curr hlt hle; exfalso; omega
  | succ n ih =>
    intro curr hlt hle
    simp only [rampUpAux, if_pos hlt]
    rcases le_or_lt set (curr + grad) with hcase | hcase
    · have hif : (if set < curr + grad then set else curr + grad) = set := by
        split
        · rfl
        · omega
      have hempty : rampUpAux n grad set set = [] := by
        cases n <;> simp [rampUpAux]
      rw [hif, hempty]
      exact ⟨rfl, List.chain'_cons.mpr ⟨⟨hlt, by omega⟩, List.chain'_singleton _⟩⟩
    · have hif : (if set < curr + grad then set else curr + grad) = curr + grad :=
        if_neg (by omega)
      rw [hif]
      obtain ⟨ihlast, ihchain⟩ := ih (curr + grad) (by omega) (by omega)
      exact ⟨getLast?_cons_of_some _ _ _ ihlast,
             List.chain'_cons.mpr ⟨⟨by omega, by omega⟩, ihchain⟩⟩

/-- The decrease loop of `poller.setBlight`: starting strictly above the
target with a positive step, it ends exactly at the target and each step
strictly decreases by at most `grad`. -/
lemma rampDownAux_spec (grad set : Int) (hg : 1 ≤ grad) :
    ∀ (fuel : Nat) (curr : Int), set < curr → (curr - set).toNat ≤ fuel →
      (rampDownAux fuel grad curr set).getLast? = some set ∧
      List.Chain' (fun a b => b < a ∧ a - b ≤ grad)
        (curr :: rampDownAux fuel grad curr set) := by
  intro fuel
  induction fuel with
  | zero => intro curr hlt hle; exfalso; omega
  | succ n ih =>
    intro curr hlt hle
    simp only [rampDownAux, if_pos hlt]
    rcases le_or_lt curr (set + grad) with hcase | hcase
    · have hif : (if curr - grad < set then set else curr - grad) = set := by
        split
        · rfl
        · omega
      have hempty : rampDownAux n grad set set = [] := by
        cases n <;> simp [rampDownAux]
      rw [hif, hempty]
      exact ⟨rfl, List.chain'_cons.mpr ⟨⟨hlt, by omega⟩, List.chain'_singleton _⟩⟩
    · have hif : (if curr - grad < set then set else curr - grad) = curr - grad :=
        if_neg (by omega)
      rw [hif]
      obtain ⟨ihlast, ihchain⟩ := ih (curr - grad) (by omega) (by omega)
      exact ⟨getLast?_cons_of_some _ _ _ ihlast,
             List.chain'_cons.mpr ⟨⟨by omega, by omega⟩, ihchain⟩⟩

/-- **C5**.  For `current ≠ target` and `rampStep ≥ 1`, the sequence of
levels `setBlight` writes ends exactly at the target, consecutive levels
(including the step from the starting level) differ by at most
`rampStep` in magnitude, and the sequence is strictly monotonic toward
the target. -/
theorem rampSeq_correct (grad curr set : Int) (hne : curr ≠ set) (hg : 1 ≤ grad) :
    (rampSeq grad curr set).getLast? = some set
    ∧ List.Chain' (fun a b => |b - a| ≤ grad) (curr :: rampSeq grad curr set)
    ∧ (curr < set → List.Chain' (fun a b => a < b) (curr :: rampSeq grad curr set))
    ∧ (set < curr → List.Chain' (fun a b => b < a) (curr :: rampSeq grad curr set)) := by
  rcases lt_trichotomy curr set with hlt | heq | hgt
  · have hs : rampSeq grad curr set = rampUpAux (set - curr).toNat grad curr set := by
      unfold rampSeq
      rw [if_neg (by omega)]
    obtain ⟨hlast, hchain⟩ := rampUpAux_spec grad set hg _ curr hlt le_rfl
    rw [hs]
    refine ⟨hlast, ?_, fun _ => ?_, fun hc => absurd hc (by omega)⟩
    · exact hchain.imp fun a b h2 => by
        rw [abs_of_nonneg (by omega)]
        exact h2.2
    · exact hchain.imp fun a b h2 => h2.1
  · exact absurd heq hne
  · have hs : rampSeq grad curr set = rampDownAux (curr - set).toNat grad curr set := by
      unfold rampSeq
      rw [if_pos hgt]
    obtain ⟨hlast, hchain⟩ := rampDownAux_spec grad set hg _ curr hgt le_rfl
    rw [hs]
    refine ⟨hlast, ?_, fun hc => absurd hc (by omega), fun _ => ?_⟩
    · exact hchain.imp fun a b h2 => by
        rw [abs_of_neg (by omega)]
        omega
    · exact hchain.imp fun a b h2 => h2.1

/-- Witness for `rampSeq_correct`: scenario C, `current=40`, `target=70`,
`rampStep=5`; the written sequence is `45,50,55,60,65,70`. -/
theorem rampSeq_correct_witness :
    ((40 : Int) ≠ 70 ∧ (1 : Int) ≤ 5)
    ∧ rampSeq 5 40 70 = [45, 50, 55, 60, 65, 70]
    ∧ ((rampSeq 5 40 70).getLast? = some 70
       ∧ List.Chain' (fun a b => |b - a| ≤ 5) ((40 : Int) :: rampSeq 5 40 70)
       ∧ ((40 : Int) < 70 → List.Chain' (fun a b => a < b) ((40 : Int) :: rampSeq 5 40 70))
       ∧ ((70 : Int) < 40 → List.Chain' (fun a b => b < a) ((40 : Int) :: rampSeq 5 40 70))) :=
  ⟨⟨by decide, by decide⟩, by decide, rampSeq_correct 5 40 70 (by decide) (by decide)⟩

end Bls

namespace Bls

/-- The inner sampling loop performs exactly `capacity - index` reads,
leaves the write index at `0` and preserves the window capacity. -/
lemma sampleLoopAux_props :
    ∀ (fuel : Nat) (w : Window) (stream : Nat → Int) (pos : Nat),
      w.idx < w.slots.length → w.slots.length ≤ fuel + w.idx →
      (sampleLoopAux fuel w stream pos).1.idx = 0 ∧
      (sampleLoopAux fuel w stream pos).1.slots.length = w.slots.length ∧
      (sampleLoopAux fuel w stream pos).2 = pos + (w.slots.length - w.idx) := by
  intro fuel
  induction fuel with
  | zero => intro w stream pos h1 h2; exfalso; omega
  | succ n ih =>
    intro w stream pos h1 h2
    have hlen : (w.push (stream pos)).slots.length = w.slots.length := by
      simp [Window.push]
    simp only [sampleLoopAux]
    rcases Nat.lt_or_ge (w.idx + 1) w.slots.length with hlt | hge
    · have hidx2 : (w.push (stream pos)).idx = w.idx + 1 := by
        simp [Window.push, Nat.mod_eq_of_lt hlt]
      rw [if_neg (by rw [hidx2]; omega)]
      obtain ⟨ih1, ih2, ih3⟩ := ih (w.push (stream pos)) stream (pos + 1)
        (by rw [hidx2, hlen]; exact hlt) (by rw [hidx2, hlen]; omega)
      refine ⟨ih1, ?_, ?_⟩
      · rw [ih2, hlen]
      · rw [ih3, hlen, hidx2]; omega
    · have heq : w.idx + 1 = w.slots.length := by omega
      have hidx2 : (w.push (stream pos)).idx = 0 := by
        simp only [Window.push]
        rw [heq, Nat.mod_self]
      rw [if_pos hidx2]
      exact ⟨hidx2, hlen, by omega⟩

/-- Both branches of a cycle carry the sampled window into the next state. -/
lemma cycle_state_win (p : Poller) (sensor blightR : Nat → Int) (s : LoopState) :
    (cycle p sensor blightR s).state.win = (cycleSample p sensor s).1 := by
  simp only [cycle]
  split <;> rfl

/-- Both branches of a cycle carry the post-sampling stream position into
the next state. -/
lemma cycle_state_pos (p : Poller) (sensor blightR : Nat → Int) (s : LoopState) :
    (cycle p sensor blightR s).state.pos = (cycleSample p sensor s).2 := by
  simp only [cycle]
  split <;> rfl

/-- Loop invariant of `poller.poll`: at every cycle boundary the write
index is `0`, the window capacity is `probes`, and exactly `k * probes`
sensor reads have been pushed after `k` cycles. -/
lemma loopStateAfter_inv (p : Poller) (sensor blightR : Nat → Int) (hp : 1 ≤ p.probes) :
    ∀ k, (loopStateAfter p sensor blightR k).win.idx = 0 ∧
         (loopStateAfter p sensor blightR k).win.slots.length = p.probes ∧
         (loopStateAfter p sensor blightR k).pos = k * p.probes := by
  intro k
  induction k with
  | zero =>
    refine ⟨rfl, ?_, ?_⟩
    · simp [loopStateAfter, initState]
    · simp [loopStateAfter, initState]
  | succ n ihk =>
    obtain ⟨h1, h2, h3⟩ := ihk
    obtain ⟨hp1, hp2, hp3⟩ := sampleLoopAux_props
      (p.probes - (loopStateAfter p sensor blightR n).win.idx)
      (loopStateAfter p sensor blightR n).win sensor (loopStateAfter p sensor blightR n).pos
      (by rw [h1, h2]; omega) (by rw [h1, h2]; omega)
    simp only [loopStateAfter, cycle_state_win, cycle_state_pos, cycleSample]
    refine ⟨hp1, ?_, ?_⟩
    · rw [hp2, h2]
    · rw [hp3, h3, h2, h1, Nat.succ_mul]
      omega

/-- **C3**.  The loop never evaluates (averages, maps, gates) before the
window has been filled `probes` times: when the evaluation of any cycle
`k` runs, at least `probes` sensor reads have been pushed into the
window. -/
theorem eval_preceded_by_probes_reads (p : Poller) (sensor blightR : Nat → Int)
    (k : Nat) (hp : 1 ≤ p.probes) :
    p.probes ≤ posAtEval p sensor blightR k := by
  obtain ⟨h1, h2, h3⟩ := loopStateAfter_inv p sensor blightR hp k
  obtain ⟨hp1, hp2, hp3⟩ := sampleLoopAux_props
    (p.probes - (loopStateAfter p sensor blightR k).win.idx)
    (loopStateAfter p sensor blightR k).win sensor (loopStateAfter p sensor blightR k).pos
    (by rw [h1, h2]; omega) (by rw [h1, h2]; omega)
  unfold posAtEval cycleSample
  rw [hp3, h2, h1]
  omega

/-- Witness for `eval_preceded_by_probes_reads`: the scenario-A poller
(8 probes), constant streams, first cycle. -/
theorem eval_preceded_by_probes_reads_witness :
    1 ≤ pollerA.probes ∧ pollerA.probes ≤ posAtEval pollerA sensor3000 blight39 0 :=
  ⟨by decide, eval_preceded_by_probes_reads pollerA sensor3000 blight39 0 (by decide)⟩

end Bls

namespace Bls

/-- Truncating division with a non-negative numerator is monotone in the
numerator, for a positive divisor. -/
lemma tdiv_le_tdiv_of_nonneg (x y d : Int) (hx : 0 ≤ x) (hxy : x ≤ y) (hd : 0 < d) :
    Int.tdiv x d ≤ Int.tdiv y d := by
  rw [Int.tdiv_eq_ediv hx hd.le, Int.tdiv_eq_ediv (hx.trans hxy) hd.le]
  exact Int.ediv_le_ediv hd hxy

/-- **C7**.  For every illuminance `≥ 0` and every valid configuration
(`0 ≤ min ≤ max`, `ratioLux > 0`) the Mapper's result lies in
`[config.min, config.max]`. -/
theorem mapper_target_in_range (p : Poller) (i : Int) (h0 : 0 ≤ p.min)
    (h1 : p.min ≤ p.max) (h2 : 0 < p.ratio) (h3 : 0 ≤ i) :
    p.min ≤ nblightFn p i ∧ nblightFn p i ≤ p.max := by
  rw [nblightFn_eq_min]
  have hx : 0 ≤ Int.tdiv (i * 100) (p.ratio * 100) :=
    Int.tdiv_nonneg (mul_nonneg h3 (by norm_num))
      (mul_nonneg h2.le (by norm_num))
  have hpct : 0 ≤ min 100 (Int.tdiv (i * 100) (p.ratio * 100)) :=
    le_min (by norm_num) hx
  have hq : 0 ≤ Int.tdiv (min 100 (Int.tdiv (i * 100) (p.ratio * 100)) * p.max) 100 :=
    Int.tdiv_nonneg (mul_nonneg hpct (h0.trans h1)) (by norm_num)
  exact ⟨le_min h1 (by omega), min_le_left _ _⟩

/-- Witness for `mapper_target_in_range`: scenario-A configuration at
average illuminance 3000. -/
theorem mapper_target_in_range_witness :
    ((0 : Int) ≤ pollerA.min ∧ pollerA.min ≤ pollerA.max ∧ (0 : Int) < pollerA.ratio
      ∧ (0 : Int) ≤ 3000)
    ∧ (pollerA.min ≤ nblightFn pollerA 3000 ∧ nblightFn pollerA 3000 ≤ pollerA.max) :=
  ⟨⟨by decide, by decide, by decide, by decide⟩,
   mapper_target_in_range pollerA 3000 (by decide) (by decide) (by decide) (by decide)⟩

/-- **C8**.  For a fixed valid configuration the Mapper is monotonically
non-decreasing in illuminance. -/
theorem mapper_target_monotone (p : Poller) (a b : Int) (h0 : 0 ≤ p.min)
    (h1 : p.min ≤ p.max) (h2 : 0 < p.ratio) (ha : 0 ≤ a) (hab : a ≤ b) :
    nblightFn p a ≤ nblightFn p b := by
  rw [nblightFn_eq_min, nblightFn_eq_min]
  have hmax : (0 : Int) ≤ p.max := h0.trans h1
  have hden : (0 : Int) < p.ratio * 100 := mul_pos h2 (by norm_num)
  have hx : Int.tdiv (a * 100) (p.ratio * 100) ≤ Int.tdiv (b * 100) (p.ratio * 100) :=
    tdiv_le_tdiv_of_nonneg _ _ _ (mul_nonneg ha (by norm_num))
      (mul_le_mul_of_nonneg_right hab (by norm_num)) hden
  have hxa : 0 ≤ Int.tdiv (a * 100) (p.ratio * 100) :=
    Int.tdiv_nonneg (mul_nonneg ha (by norm_num)) hden.le
  have hpct : min 100 (Int.tdiv (a * 100) (p.ratio * 100))
      ≤ min 100 (Int.tdiv (b * 100) (p.ratio * 100)) :=
    min_le_min le_rfl hx
  have hpcta : 0 ≤ min 100 (Int.tdiv (a * 100) (p.ratio * 100)) :=
    le_min (by norm_num) hxa
  have hmul : min 100 (Int.tdiv (a * 100) (p.ratio * 100)) * p.max
      ≤ min 100 (Int.tdiv (b * 100) (p.ratio * 100)) * p.max :=
    mul_le_mul_of_nonneg_right hpct hmax
  have hq : Int.tdiv (min 100 (Int.tdiv (a * 100) (p.ratio * 100)) * p.max) 100
      ≤ Int.tdiv (min 100 (Int.tdiv (b * 100) (p.ratio * 100)) * p.max) 100 :=
    tdiv_le_tdiv_of_nonneg _ _ _ (mul_nonneg hpcta hmax) hmul (by norm_num)
  exact min_le_min le_rfl (by omega)

/-- Witness for `mapper_target_monotone`: scenario-A configuration,
illuminance 3000 against 4500. -/
theorem mapper_target_monotone_witness :
    ((0 : Int) ≤ pollerA.min ∧ pollerA.min ≤ pollerA.max ∧ (0 : Int) < pollerA.ratio
      ∧ (0 : Int) ≤ 3000 ∧ (3000 : Int) ≤ 4500)
    ∧ nblightFn pollerA 3000 ≤ nblightFn pollerA 4500 :=
  ⟨⟨by decide, by decide, by decide, by decide, by decide⟩,
   mapper_target_monotone pollerA 3000 4500 (by decide) (by decide) (by decide)
     (by decide) (by decide)⟩

end Bls

namespace Bls

/-- **C9**.  A backlight read failure, a sensor read failure, or (outside
dry-run) a backlight write failure makes the failing cycle abort with
the source's diagnostic (`log.Fatal`), and the loop never continues past
it: running any number of further cycles yields the same aborted
outcome as running exactly one. -/
theorem failures_abort_run (p : Poller) (sensor blightR : Nat → Except String Int)
    (writeRes : Nat → Option String) (s : EState) (k : Nat)
    (h :
      (∃ e, blightR s.bpos = Except.error e)
      ∨ (∃ b e, blightR s.bpos = Except.ok b ∧ s.win.idx < p.probes
          ∧ sensor s.pos = Except.error e)
      ∨ (∃ b ws e, p.dryrun = false ∧ blightR s.bpos = Except.ok b
          ∧ sampleLoopE (p.probes - s.win.idx) s.win sensor s.pos = Except.ok ws
          ∧ shouldApply p b (nblightFn p (windowAverage ws.1.slots)) = true
          ∧ writeSeq writeRes s.wpos
              (rampSeq p.grad b (nblightFn p (windowAverage ws.1.slots)))
            = Except.error e)) :
    runE p sensor blightR writeRes (k + 1) s = runE p sensor blightR writeRes 1 s
    ∧ isFatal (runE p sensor blightR writeRes 1 s) = true := by
  have hcy : ∃ e, cycleE p sensor blightR writeRes s = Except.error e := by
    rcases h with ⟨e, he⟩ | ⟨b, e, hb, hidx, hs⟩ | ⟨b, ws, e, hdry, hb, hsamp, happ, hwr⟩
    · exact ⟨"cannot get backlight value: " ++ e, by simp only [cycleE, he]⟩
    · obtain ⟨m, hm⟩ : ∃ m, p.probes - s.win.idx = m + 1 :=
        ⟨p.probes - s.win.idx - 1, by omega⟩
      have hsamp : sampleLoopE (p.probes - s.win.idx) s.win sensor s.pos
          = Except.error e := by
        rw [hm]
        simp only [sampleLoopE, hs]
      exact ⟨"cannot get ambient light value: " ++ e, by simp only [cycleE, hb, hsamp]⟩
    · exact ⟨"cannot set backlight: " ++ e,
        by simp only [cycleE, hb, hsamp, happ, if_true, hdry, Bool.false_eq_true,
          if_false, hwr]⟩
  obtain ⟨e, he⟩ := hcy
  have hrun : ∀ m, runE p sensor blightR writeRes (m + 1) s = Except.error e := by
    intro m
    simp only [runE, he]
  exact ⟨by rw [hrun k, hrun 0], by rw [hrun 0]; rfl⟩

/-- Witness for `failures_abort_run`: a backlight device whose reads
always fail; three cycles of the run abort exactly as one does. -/
theorem failures_abort_run_witness :
    runE pollerOne sensorOkE blightBadE writeOkE 3 (initStateE pollerOne)
      = runE pollerOne sensorOkE blightBadE writeOkE 1 (initStateE pollerOne)
    ∧ isFatal (runE pollerOne sensorOkE blightBadE writeOkE 1 (initStateE pollerOne))
      = true :=
  failures_abort_run pollerOne sensorOkE blightBadE writeOkE (initStateE pollerOne) 2
    (Or.inl ⟨"read failed", rfl⟩)

end Bls
